import Mathlib

/-!
Shallow embedding of `src/backend/google_image_scraper.py`, the single
source file of the `imageback` repository: the image extractor
(`scrape_all_images`), the image fetcher (`save_image`), and the job
manager (`start_scrape`, `get_job_status`, `cancel_job`, and the
background pipeline `scrape_images_task`).  Machine-level effects — the
filesystem, HTTP responses, and the Selenium driver — are modelled by
explicit environment values recording exactly the outcomes the Python
code branches on.
-/

deriving instance DecidableEq for Except

namespace ImageScraper

/-! ## Python primitives used by the code -/

/-- Python truthiness of a `get_attribute` result: `None` and the empty
string are falsy, every other string is truthy. -/
def truthy : Option String → Bool
  | none => false
  | some s => s != ""

/-- Numeric value of a decimal digit character, `none` otherwise. -/
def digitVal (c : Char) : Option Nat :=
  if '0' ≤ c ∧ c ≤ '9' then some (c.toNat - '0'.toNat) else none

/-- Accumulating value of an all-digit character list; `none` on any
non-digit character. -/
def natDigitsAux : List Char → Nat → Option Nat
  | [], acc => some acc
  | c :: rest, acc =>
    match digitVal c with
    | none => none
    | some d => natDigitsAux rest (acc * 10 + d)

/-- Value of a nonempty all-digit character list. -/
def natDigits : List Char → Option Nat
  | [] => none
  | l => natDigitsAux l 0

/-- Whitespace recognised by Python's `int` when stripping a string. -/
def isSpaceChar (c : Char) : Bool :=
  c == ' ' || c == '\t' || c == '\n' || c == '\r'

/-- Model of Python `int(s)` on decimal strings: optional surrounding
whitespace, an optional sign, then at least one digit.  `none` models
the `ValueError` raised on anything else. -/
def pyInt (s : String) : Option Int :=
  let l := ((s.toList.dropWhile isSpaceChar).reverse.dropWhile isSpaceChar).reverse
  match l with
  | '+' :: rest => (natDigits rest).map Int.ofNat
  | '-' :: rest => (natDigits rest).map (fun n => -(n : Int))
  | rest => (natDigits rest).map Int.ofNat

/-- Python `int(attr or 0)` applied to a `get_attribute` result: a falsy
attribute (absent element attribute or empty string) yields `0`,
otherwise the string is parsed; `none` models the escaping
`ValueError`. -/
def pyDim : Option String → Option Int
  | none => some 0
  | some s => if s == "" then some 0 else pyInt s

/-- Whether the first character list starts the second. -/
def charsStart : List Char → List Char → Bool
  | [], _ => true
  | _ :: _, [] => false
  | a :: as, b :: bs => a == b && charsStart as bs

/-- Whether the first character list occurs contiguously in the second. -/
def charsInside (needle : List Char) : List Char → Bool
  | [] => charsStart needle []
  | c :: rest => charsStart needle (c :: rest) || charsInside needle rest

/-- Substring containment, Python's `needle in hay` on strings. -/
def strContains (hay needle : String) : Bool :=
  charsInside needle.toList hay.toList

/-- Python list slicing `l[:n]` with an `int` bound: a nonnegative bound
takes a prefix, a negative bound counts from the end, clamped at zero. -/
def pySlice {α : Type} (l : List α) (n : Int) : List α :=
  if 0 ≤ n then l.take n.toNat else l.take (l.length - (-n).toNat)

/-! ## Image extractor (`scrape_all_images`) -/

/-- One `<img>` element as the extractor sees it: the four attributes
the code reads via `get_attribute`. -/
structure ImgElem where
  src : Option String
  data_src : Option String
  width : Option String
  height : Option String
deriving DecidableEq

/-- The marker tested by `"data:image/gif" not in image_url`. -/
def gifMarker : String := "data:image/gif"

/-- Python `img.get_attribute('src') or img.get_attribute('data-src')`. -/
def resolvedUrl (img : ImgElem) : Option String :=
  if truthy img.src then img.src else img.data_src

/-- The guard `if image_url and "data:image/gif" not in image_url`. -/
def urlPasses (img : ImgElem) : Bool :=
  truthy (resolvedUrl img) && !strContains ((resolvedUrl img).getD "") gifMarker

/-- The extractor loop of `scrape_all_images`: for each element resolve
`src or data-src`, keep it only if truthy and free of the gif marker,
then parse `int(width or 0)` and `int(height or 0)` — a parse failure
(`Except.error ()`) models the `ValueError` that aborts the whole
extraction — and append the URL when both dimensions are at least 100. -/
def scrape_all_images : List ImgElem → Except Unit (List String)
  | [] => Except.ok []
  | img :: rest =>
    if urlPasses img then
      match pyDim img.width with
      | none => Except.error ()
      | some w =>
        match pyDim img.height with
        | none => Except.error ()
        | some h =>
          if 100 ≤ w ∧ 100 ≤ h then
            match scrape_all_images rest with
            | Except.error e => Except.error e
            | Except.ok urls => Except.ok ((resolvedUrl img).getD "" :: urls)
          else scrape_all_images rest
    else scrape_all_images rest

/-- Per-element selection following the specification's wording for the
Extractor, read literally: the resolved URL (eager attribute preferred,
lazy-load fallback) must be truthy, must not itself be of the inline
animated-placeholder format (a URL beginning with `data:image/gif`), and
both parsed dimensions must be at least 100 (unset read as 0). -/
def claim_keep (img : ImgElem) : Option String :=
  let u := resolvedUrl img
  if truthy u && !(charsStart gifMarker.toList (u.getD "").toList) then
    match pyDim img.width, pyDim img.height with
    | some w, some h => if 100 ≤ w ∧ 100 ≤ h then u else none
    | _, _ => none
  else none

/-- Per-element selection following the specification's wording, amended
to the placeholder test the code performs: the URL must not contain the
substring `data:image/gif` anywhere. -/
def spec_keep (img : ImgElem) : Option String :=
  if urlPasses img then
    match pyDim img.width, pyDim img.height with
    | some w, some h => if 100 ≤ w ∧ 100 ≤ h then resolvedUrl img else none
    | _, _ => none
  else none

/-! ## Job manager data model -/

/-- The status strings stored in a `job_statuses` entry.  `running`
appears in the specification's state machine; the code never stores it,
which is what the claims about it probe. -/
inductive Status
  | pending
  | running
  | completed
  | failed
  | cancelled
deriving DecidableEq

/-- One value of the `job_statuses` dictionary: exactly the four keys
the code stores per job. -/
structure JobRecord where
  status : Status
  images_scraped : Int
  total_images : Int
  folder_path : String
deriving DecidableEq

/-- The HTTP error classes the endpoints raise (`HTTPException` status
codes 404, 400 and 500). -/
inductive HTTPError
  | notFound
  | badRequest
  | internalError
deriving DecidableEq

/-- The `job_statuses[job_id] = {...}` initialisation performed by
`start_scrape` before scheduling the background task: a Pending record
with zero progress and the requested total. -/
def start_scrape (num_images : Int) (folder_path : String) : JobRecord :=
  { status := Status.pending
    images_scraped := 0
    total_images := num_images
    folder_path := folder_path }

/-- `get_job_status`, acting on this job's entry of the table (`none`
models an unknown identifier): 404 if absent, otherwise the record. -/
def get_job_status : Option JobRecord → Except HTTPError JobRecord
  | none => Except.error HTTPError.notFound
  | some r => Except.ok r

/-- `cancel_job`, returning the new table entry together with the
response: 404 if unknown, transition to Cancelled if Pending, otherwise
a 400 with the entry untouched. -/
def cancel_job : Option JobRecord → Option JobRecord × Except HTTPError String
  | none => (none, Except.error HTTPError.notFound)
  | some r =>
    if r.status = Status.pending then
      (some { r with status := Status.cancelled }, Except.ok "Job cancelled successfully")
    else
      (some r, Except.error HTTPError.badRequest)

/-! ## Image fetcher (`save_image`) -/

/-- Outcome of one `requests.get` call: a response carrying a status
code, or the call itself raising (timeout, connection error). -/
inductive AttemptResult
  | httpStatus (code : Nat)
  | connectionRaise
deriving DecidableEq

/-- One candidate URL as the fetcher experiences it: either an
inline-encoded `data:image/` payload (with the fact whether its base64
body decodes), or a remote URL whose fetch attempts behave as the
environment function `net` dictates, attempt by attempt. -/
inductive Candidate
  | inlineData (decode_ok : Bool)
  | remote (net : Nat → AttemptResult)

/-- What a `save_image` call did: returned (with or without having
written a file), or raised an `HTTPException`. -/
inductive SaveResult
  | completedSave (file_written : Bool)
  | raisedSave
deriving DecidableEq

/-- The `for attempt in range(retry_count)` loop of `save_image`: each
attempt issues `requests.get` (attempt `i`, fuel counting down); a raise
escapes, a 200 writes the file and breaks, any other status sleeps and
retries; exhausting the range returns with no file written. -/
def remote_attempts (net : Nat → AttemptResult) : Nat → Nat → SaveResult
  | _, 0 => SaveResult.completedSave false
  | i, n + 1 =>
    match net i with
    | AttemptResult.connectionRaise => SaveResult.raisedSave
    | AttemptResult.httpStatus code =>
      if code = 200 then SaveResult.completedSave true
      else remote_attempts net (i + 1) n

/-- `save_image` with its default `retry_count=3`: an inline `data:image/`
URL is base64-decoded and written — a decode failure is caught and
re-raised as `HTTPException` (`raisedSave`) — while a remote URL goes
through the bounded-retry loop. -/
def save_image : Candidate → SaveResult
  | Candidate.inlineData ok => if ok then SaveResult.completedSave true else SaveResult.raisedSave
  | Candidate.remote net => remote_attempts net 0 3

/-! ## Background pipeline (`scrape_images_task`) -/

/-- Result of the per-candidate loop of `scrape_images_task`:
the final entry of this job in the table, how many files were written,
whether an exception escaped the loop, and the successive table entries
observable after each completed iteration (a status poll between
iterations sees exactly these snapshots). -/
structure LoopResult where
  record : Option JobRecord
  files_written : Nat
  raised : Bool
  trace : List (Option JobRecord)
deriving DecidableEq

/-- The `for index, image_url in enumerate(image_urls, start=1)` loop.
Each iteration first tests `job_id in job_statuses` — records are never
deleted from the table, so for a live job this is the `isSome` of its
entry — then awaits `save_image`, and on return assigns
`job_statuses[job_id]["images_scraped"] = index` whether or not a file
was written.  A raise from `save_image` aborts the loop. -/
def run_loop : List Candidate → Nat → Option JobRecord → LoopResult
  | [], _, rec => ⟨rec, 0, false, []⟩
  | c :: rest, index, rec =>
    if rec.isSome then
      match save_image c with
      | SaveResult.raisedSave => ⟨rec, 0, true, []⟩
      | SaveResult.completedSave written =>
        let rec' := rec.map fun r => { r with images_scraped := (index : Int) }
        let res := run_loop rest (index + 1) rec'
        ⟨res.record, (if written then 1 else 0) + res.files_written, res.raised, rec' :: res.trace⟩
    else
      let res := run_loop rest (index + 1) rec
      ⟨res.record, res.files_written, res.raised, rec :: res.trace⟩

/-- The environment a pipeline run meets: whether driver creation,
navigation, scrolling and extraction all succeed, and — when they do —
the candidate list the extractor produced, each candidate described by
its fetch behaviour. -/
structure Env where
  setup_ok : Bool
  candidates : List Candidate

/-- `job_statuses[job_id]["status"] = s` on this job's table entry. -/
def set_status (s : Status) : Option JobRecord → Option JobRecord :=
  Option.map fun r => { r with status := s }

/-- Result of one whole `scrape_images_task` run. -/
structure TaskResult where
  record : Option JobRecord
  files_written : Nat
  driver_closed : Bool
  raised : Bool
  trace : List (Option JobRecord)
deriving DecidableEq

/-- `scrape_images_task`: on a setup failure the `except` block marks the
job failed and re-raises (no `driver.quit()` is reached).  Otherwise the
candidate list is truncated by `image_urls[:num_images]`, the loop runs,
and: if it raised, the `except` block marks the job failed and re-raises,
again skipping `driver.quit()`; if it completed, the status is
unconditionally set to `completed` and only then is `driver.quit()`
executed. -/
def scrape_images_task (env : Env) (num_images : Int) (rec : Option JobRecord) : TaskResult :=
  if env.setup_ok then
    let urls := pySlice env.candidates num_images
    let res := run_loop urls 1 rec
    if res.raised then
      ⟨set_status Status.failed res.record, res.files_written, false, true, res.trace⟩
    else
      ⟨set_status Status.completed res.record, res.files_written, true, false, res.trace⟩
  else
    ⟨set_status Status.failed rec, 0, false, true, []⟩

/-! ## Derived observables used in the statements -/

/-- Classifier of one `requests.get` outcome: a response was returned
and its status code is not 200 (the retry branch of `save_image`). -/
def nonSuccess : AttemptResult → Bool
  | AttemptResult.httpStatus code => code != 200
  | AttemptResult.connectionRaise => false

/-- A table entry respecting the invariant `imagesScraped <= totalImages`
(an absent entry respects it vacuously). -/
def recOk : Option JobRecord → Bool
  | none => true
  | some r => decide (r.images_scraped ≤ r.total_images)

/-- An element the extractor handles without raising: either it fails
the URL guard (its dimensions are never parsed) or both dimensions
parse. -/
def elemSafe (img : ImgElem) : Bool :=
  !(urlPasses img) || ((pyDim img.width).isSome && (pyDim img.height).isSome)

/-- An element that passes the URL guard yet has an unparseable
dimension, so reaching it raises `ValueError`. -/
def elemBad (img : ImgElem) : Bool :=
  urlPasses img && !((pyDim img.width).isSome && (pyDim img.height).isSome)

/-! ## Helper lemmas -/

theorem urlPasses_resolved {img : ImgElem} (h : urlPasses img = true) :
    resolvedUrl img = some ((resolvedUrl img).getD "") := by
  unfold urlPasses at h
  cases hres : resolvedUrl img with
  | none => rw [hres] at h; simp [truthy] at h
  | some s => rfl

theorem remote_attempts_skip {net : Nat → AttemptResult} {i n : Nat}
    (h : nonSuccess (net i) = true) :
    remote_attempts net i (n + 1) = remote_attempts net (i + 1) n := by
  cases ha : net i with
  | connectionRaise => rw [ha] at h; simp [nonSuccess] at h
  | httpStatus code =>
    rw [ha] at h
    have hne : code ≠ 200 := by simpa [nonSuccess] using h
    simp [remote_attempts, ha, hne]

theorem remote_attempts_raise {net : Nat → AttemptResult} {i n : Nat}
    (h : net i = AttemptResult.connectionRaise) :
    remote_attempts net i (n + 1) = SaveResult.raisedSave := by
  simp [remote_attempts, h]

theorem save_image_nonsuccess {net : Nat → AttemptResult}
    (h : ∀ i < 3, nonSuccess (net i) = true) :
    save_image (Candidate.remote net) = SaveResult.completedSave false := by
  have h0 := h 0 (by omega)
  have h1 := h 1 (by omega)
  have h2 := h 2 (by omega)
  show remote_attempts net 0 3 = SaveResult.completedSave false
  rw [remote_attempts_skip h0, remote_attempts_skip h1, remote_attempts_skip h2]
  rfl

theorem run_loop_status (cs : List Candidate) : ∀ (idx : Nat) (o : Option JobRecord),
    (run_loop cs idx o).record.map JobRecord.status = o.map JobRecord.status ∧
    ∀ s ∈ (run_loop cs idx o).trace, s.map JobRecord.status = o.map JobRecord.status := by
  induction cs with
  | nil =>
    intro idx o
    exact ⟨rfl, by intro s hs; simp [run_loop] at hs⟩
  | cons c rest ih =>
    intro idx o
    cases o with
    | none =>
      have := ih (idx + 1) none
      simp only [run_loop, Option.isSome_none, Bool.false_eq_true, if_false]
      exact ⟨this.1, by
        intro s hs
        rcases List.mem_cons.mp hs with h | h
        · subst h; rfl
        · exact this.2 s h⟩
    | some r =>
      simp only [run_loop, Option.isSome_some, if_true]
      cases hs : save_image c with
      | raisedSave => exact ⟨rfl, by intro s hmem; simp at hmem⟩
      | completedSave written =>
        have := ih (idx + 1) (some { r with images_scraped := (idx : Int) })
        refine ⟨by simpa using this.1, ?_⟩
        intro s hmem
        rcases List.mem_cons.mp hmem with h | h
        · subst h; rfl
        · simpa using this.2 s h

theorem recOk_iff (o : Option JobRecord) :
    recOk o = true ↔ ∀ r, o = some r → r.images_scraped ≤ r.total_images := by
  cases o with
  | none => simp [recOk]
  | some r => simp [recOk]

theorem run_loop_le (cs : List Candidate) : ∀ (idx : Nat) (o : Option JobRecord) (n : Int),
    (∀ r, o = some r → r.total_images = n ∧ r.images_scraped ≤ n) →
    (idx : Int) + cs.length ≤ n + 1 →
    (∀ r, (run_loop cs idx o).record = some r →
      r.total_images = n ∧ r.images_scraped ≤ n) ∧
    (∀ s ∈ (run_loop cs idx o).trace, ∀ r, s = some r →
      r.total_images = n ∧ r.images_scraped ≤ n) := by
  induction cs with
  | nil =>
    intro idx o n ho _
    exact ⟨ho, by intro s hs; simp [run_loop] at hs⟩
  | cons c rest ih =>
    intro idx o n ho hb
    have hb' : ((idx + 1 : Nat) : Int) + rest.length ≤ n + 1 := by
      simp only [List.length_cons] at hb
      push_cast at hb ⊢
      omega
    cases o with
    | none =>
      have hrec := ih (idx + 1) none n (by intro r hr; cases hr) hb'
      simp only [run_loop, Option.isSome_none, Bool.false_eq_true, if_false]
      refine ⟨hrec.1, ?_⟩
      intro s hs
      rcases List.mem_cons.mp hs with h | h
      · subst h; intro r hr; cases hr
      · exact hrec.2 s h
    | some r =>
      simp only [run_loop, Option.isSome_some, if_true]
      cases hsave : save_image c with
      | raisedSave =>
        exact ⟨ho, by intro s hs; simp at hs⟩
      | completedSave written =>
        have hidx : (idx : Int) ≤ n := by
          simp only [List.length_cons] at hb
          push_cast at hb
          omega
        have ho' : ∀ r', some { r with images_scraped := (idx : Int) } = some r' →
            r'.total_images = n ∧ r'.images_scraped ≤ n := by
          intro r' hr'
          cases hr'
          exact ⟨(ho r rfl).1, hidx⟩
        have hrec := ih (idx + 1) (some { r with images_scraped := (idx : Int) }) n ho' hb'
        refine ⟨by simpa using hrec.1, ?_⟩
        intro s hs
        rcases List.mem_cons.mp hs with h | h
        · subst h
          intro r' hr'
          exact ho' r' (by simpa using hr')
        · simpa using hrec.2 s h

theorem set_status_recOk (s : Status) (o : Option JobRecord) (h : recOk o = true) :
    recOk (set_status s o) = true := by
  cases o with
  | none => rfl
  | some r => simpa [recOk, set_status] using h

theorem pySlice_length_le {α : Type} (l : List α) (n : Int) (hn : 0 ≤ n) :
    ((pySlice l n).length : Int) ≤ n := by
  unfold pySlice
  rw [if_pos hn]
  calc ((l.take n.toNat).length : Int) ≤ (n.toNat : Int) := by
        exact_mod_cast Nat.le_of_eq (List.length_take n.toNat l) |>.trans (min_le_left _ _)
    _ = n := Int.toNat_of_nonneg hn

theorem task_le (env : Env) (n : Int) (o : Option JobRecord) (hn : 0 ≤ n)
    (ho : ∀ r, o = some r → r.total_images = n ∧ r.images_scraped ≤ n) :
    (((scrape_images_task env n o).record ::
      (scrape_images_task env n o).trace).all recOk) = true := by
  have hoOk : recOk o = true := by
    rw [recOk_iff]
    intro r hr
    have := ho r hr
    rw [this.1]
    exact this.2
  unfold scrape_images_task
  cases hsetup : env.setup_ok with
  | false =>
    simp only [Bool.false_eq_true, if_false, List.all_cons, List.all_nil, Bool.and_true]
    exact set_status_recOk _ _ hoOk
  | true =>
    simp only [if_true]
    have hb : ((1 : Nat) : Int) + (pySlice env.candidates n).length ≤ n + 1 := by
      have := pySlice_length_le env.candidates n hn
      push_cast
      omega
    have hloop := run_loop_le (pySlice env.candidates n) 1 o n ho hb
    have hrecordOk : recOk (run_loop (pySlice env.candidates n) 1 o).record = true := by
      rw [recOk_iff]
      intro r hr
      have := hloop.1 r hr
      rw [this.1]
      exact this.2
    have htraceOk : ((run_loop (pySlice env.candidates n) 1 o).trace.all recOk) = true := by
      rw [List.all_eq_true]
      intro s hs
      rw [recOk_iff]
      intro r hr
      have := hloop.2 s hs r hr
      rw [this.1]
      exact this.2
    cases hraised : (run_loop (pySlice env.candidates n) 1 o).raised with
    | true =>
      simp only [hraised, if_true, List.all_cons]
      rw [set_status_recOk _ _ hrecordOk, htraceOk]
      rfl
    | false =>
      simp only [hraised, Bool.false_eq_true, if_false, List.all_cons]
      rw [set_status_recOk _ _ hrecordOk, htraceOk]
      rfl

/-! ## Claim theorems -/

/-- C1: the claim that terminal statuses are immutable fails on the
code.  A job is created Pending (`num_images = 1`), `cancel_job` puts it
in the terminal Cancelled state, yet one pipeline run — whose
per-iteration guard `job_id in job_statuses` is a membership test that
is always true because records are never deleted — overwrites the
status to Completed. -/
theorem cancelled_status_overwritten_by_pipeline :
    get_job_status ((cancel_job (some (start_scrape 1 "f"))).1) =
      Except.ok ⟨Status.cancelled, 0, 1, "f"⟩ ∧
    (scrape_images_task ⟨true, [Candidate.inlineData true]⟩ 1
        ((cancel_job (some (start_scrape 1 "f"))).1)).record =
      some ⟨Status.completed, 1, 1, "f"⟩ := by
  decide

/-- C2: the claim that cancelling a Pending job stops the pipeline fails
on the code.  After a successful cancellation (response and Cancelled
record shown), the pipeline still fetches both candidates, writes two
files, advances `images_scraped` to 2, and finally overwrites the status
with Completed. -/
theorem cancelled_job_still_scrapes_and_completes :
    (cancel_job (some (start_scrape 5 "g"))).2 =
      Except.ok "Job cancelled successfully" ∧
    (cancel_job (some (start_scrape 5 "g"))).1 =
      some ⟨Status.cancelled, 0, 5, "g"⟩ ∧
    (scrape_images_task ⟨true, [Candidate.inlineData true, Candidate.inlineData true]⟩ 5
        ((cancel_job (some (start_scrape 5 "g"))).1)).record =
      some ⟨Status.completed, 2, 5, "g"⟩ ∧
    (scrape_images_task ⟨true, [Candidate.inlineData true, Candidate.inlineData true]⟩ 5
        ((cancel_job (some (start_scrape 5 "g"))).1)).files_written = 2 := by
  decide

/-- C3, counterexample: after the first successful fetch of a run the
job's table entry — the one and only snapshot in the loop trace — still
has status Pending, and a status poll returns it as such; the claim
expects Running there. -/
theorem first_progress_poll_shows_pending :
    (scrape_images_task ⟨true, [Candidate.inlineData true]⟩ 1
        (some (start_scrape 1 "c"))).trace = [some ⟨Status.pending, 1, 1, "c"⟩] ∧
    get_job_status (some ⟨Status.pending, 1, 1, "c"⟩) =
      Except.ok ⟨Status.pending, 1, 1, "c"⟩ ∧
    Status.pending ≠ Status.running := by
  decide

/-- C3, amended: the pipeline never sets Running.  The per-candidate
loop leaves the status field untouched in its final record and in every
observable snapshot (progress updates write only `images_scraped`), and
for a live job the status changes only at termination, to Failed when
the run raised and to Completed otherwise. -/
theorem pipeline_never_sets_running (cs : List Candidate) (idx : Nat)
    (o : Option JobRecord) (r : JobRecord) (env : Env) (n : Int) :
    (run_loop cs idx o).record.map JobRecord.status = o.map JobRecord.status ∧
    ((run_loop cs idx o).trace.all fun s =>
      decide (s.map JobRecord.status = o.map JobRecord.status)) = true ∧
    (scrape_images_task env n (some r)).record.map JobRecord.status =
      some (if (scrape_images_task env n (some r)).raised then Status.failed
            else Status.completed) := by
  have hstat := run_loop_status cs idx o
  refine ⟨hstat.1, ?_, ?_⟩
  · rw [List.all_eq_true]
    intro s hs
    exact decide_eq_true (hstat.2 s hs)
  · unfold scrape_images_task
    cases hsetup : env.setup_ok with
    | false => rfl
    | true =>
      simp only [if_true]
      have hrec := (run_loop_status (pySlice env.candidates n) 1 (some r)).1
      cases hres : (run_loop (pySlice env.candidates n) 1 (some r)).record with
      | none => rw [hres] at hrec; simp at hrec
      | some r' =>
        cases hraised : (run_loop (pySlice env.candidates n) 1 (some r)).raised with
        | true => simp [hraised, hres, set_status]
        | false => simp [hraised, hres, set_status]

/-- C5, counterexample: on the inline-decode-failure path the claim's
final conjunct fails — the job does transition to Failed with no later
candidate processed, but `driver.quit()` is never reached, so the
Browser Session is not closed on this exit path. -/
theorem inline_decode_failure_leaves_driver_open :
    scrape_images_task ⟨true, [Candidate.inlineData false, Candidate.inlineData true]⟩ 2
        (some (start_scrape 2 "h")) =
      ⟨some ⟨Status.failed, 0, 2, "h"⟩, 0, false, true, []⟩ := by
  decide

/-- C5, amended: a malformed inline payload at the head of the candidate
list fails the job immediately — Failed status, no file written, no
completed iteration — but leaves the driver open; in general the driver
is closed exactly on the non-raising (successful) exit path. -/
theorem inline_decode_failure_fails_job_without_quit
    (rest : List Candidate) (r : JobRecord) (n : Int) (hn : 1 ≤ n)
    (env2 : Env) (n2 : Int) (o2 : Option JobRecord) :
    (scrape_images_task ⟨true, Candidate.inlineData false :: rest⟩ n (some r)).record =
      some { r with status := Status.failed } ∧
    (scrape_images_task ⟨true, Candidate.inlineData false :: rest⟩ n (some r)).files_written
      = 0 ∧
    (scrape_images_task ⟨true, Candidate.inlineData false :: rest⟩ n (some r)).trace = [] ∧
    (scrape_images_task ⟨true, Candidate.inlineData false :: rest⟩ n (some r)).driver_closed
      = false ∧
    (scrape_images_task ⟨true, Candidate.inlineData false :: rest⟩ n (some r)).raised
      = true ∧
    (scrape_images_task env2 n2 o2).driver_closed = !(scrape_images_task env2 n2 o2).raised := by
  have hslice : pySlice (Candidate.inlineData false :: rest) n =
      Candidate.inlineData false :: (rest.take (n.toNat - 1)) := by
    unfold pySlice
    rw [if_pos (by omega)]
    obtain ⟨k, hk⟩ : ∃ k, n.toNat = k + 1 := ⟨n.toNat - 1, by omega⟩
    rw [hk]
    simp [List.take_succ_cons]
  have hloop : run_loop (Candidate.inlineData false :: (rest.take (n.toNat - 1))) 1 (some r) =
      ⟨some r, 0, true, []⟩ := by
    simp [run_loop, save_image]
  have htask : scrape_images_task ⟨true, Candidate.inlineData false :: rest⟩ n (some r) =
      ⟨some { r with status := Status.failed }, 0, false, true, []⟩ := by
    unfold scrape_images_task
    simp only [if_true, hslice, hloop]
    rfl
  refine ⟨by rw [htask], by rw [htask], by rw [htask], by rw [htask], by rw [htask], ?_⟩
  unfold scrape_images_task
  cases hsetup : env2.setup_ok with
  | false => rfl
  | true =>
    simp only [if_true]
    cases hraised : (run_loop (pySlice env2.candidates n2) 1 o2).raised with
    | true => simp [hraised]
    | false => simp [hraised]

/-- C5, witness of the amended theorem at a concrete input. -/
theorem inline_decode_failure_fails_job_without_quit_witness :
    (1 : Int) ≤ 1 ∧
    ((scrape_images_task ⟨true, Candidate.inlineData false :: []⟩ 1
        (some (start_scrape 1 "w5"))).record =
      some { start_scrape 1 "w5" with status := Status.failed } ∧
    (scrape_images_task ⟨true, Candidate.inlineData false :: []⟩ 1
        (some (start_scrape 1 "w5"))).files_written = 0 ∧
    (scrape_images_task ⟨true, Candidate.inlineData false :: []⟩ 1
        (some (start_scrape 1 "w5"))).trace = [] ∧
    (scrape_images_task ⟨true, Candidate.inlineData false :: []⟩ 1
        (some (start_scrape 1 "w5"))).driver_closed = false ∧
    (scrape_images_task ⟨true, Candidate.inlineData false :: []⟩ 1
        (some (start_scrape 1 "w5"))).raised = true ∧
    (scrape_images_task ⟨false, []⟩ 0 none).driver_closed =
      !(scrape_images_task ⟨false, []⟩ 0 none).raised) :=
  ⟨by decide,
    inline_decode_failure_fails_job_without_quit [] (start_scrape 1 "w5") 1 (by decide)
      ⟨false, []⟩ 0 none⟩

/-- C6, counterexample: a job created with the (unvalidated) requested
count `-1` and two extractable candidates ends Completed with
`images_scraped = 1`, violating `imagesScraped <= totalImages` since
`1 <= -1` is false — Python's negative slice bound keeps one candidate. -/
theorem negative_request_breaks_progress_bound :
    (scrape_images_task ⟨true, [Candidate.inlineData true, Candidate.inlineData true]⟩ (-1)
        (some (start_scrape (-1) "n"))).record =
      some ⟨Status.completed, 1, -1, "n"⟩ ∧
    ¬ ((1 : Int) ≤ -1) := by
  decide

/-- C6, amended: for every job created with a nonnegative requested
count, `imagesScraped <= totalImages` holds at creation, and at every
observable snapshot of a pipeline run — final record and every
mid-loop state — whether the run starts from the fresh Pending record
or from the record left by a successful cancellation. -/
theorem progress_bounded_by_total_when_nonneg (n : Int) (p : String)
    (env env' : Env) (hn : 0 ≤ n) :
    recOk (some (start_scrape n p)) = true ∧
    (((scrape_images_task env n (some (start_scrape n p))).record ::
      (scrape_images_task env n (some (start_scrape n p))).trace).all recOk) = true ∧
    (((scrape_images_task env' n ((cancel_job (some (start_scrape n p))).1)).record ::
      (scrape_images_task env' n ((cancel_job (some (start_scrape n p))).1)).trace).all
        recOk) = true := by
  have hcancel : (cancel_job (some (start_scrape n p))).1 =
      some ⟨Status.cancelled, 0, n, p⟩ := by
    simp [cancel_job, start_scrape]
  refine ⟨?_, ?_, ?_⟩
  · simp [recOk, start_scrape, hn]
  · apply task_le env n _ hn
    intro r hr
    cases hr
    exact ⟨rfl, hn⟩
  · rw [hcancel]
    apply task_le env' n _ hn
    intro r hr
    cases hr
    exact ⟨rfl, hn⟩

/-- C6, witness of the amended theorem at a concrete input. -/
theorem progress_bounded_by_total_when_nonneg_witness :
    (0 : Int) ≤ 2 ∧
    (recOk (some (start_scrape 2 "w6")) = true ∧
    (((scrape_images_task ⟨true, [Candidate.inlineData true]⟩ 2
        (some (start_scrape 2 "w6"))).record ::
      (scrape_images_task ⟨true, [Candidate.inlineData true]⟩ 2
        (some (start_scrape 2 "w6"))).trace).all recOk) = true ∧
    (((scrape_images_task ⟨false, []⟩ 2
        ((cancel_job (some (start_scrape 2 "w6"))).1)).record ::
      (scrape_images_task ⟨false, []⟩ 2
        ((cancel_job (some (start_scrape 2 "w6"))).1)).trace).all recOk) = true) :=
  ⟨by decide,
    progress_bounded_by_total_when_nonneg 2 "w6" ⟨true, [Candidate.inlineData true]⟩
      ⟨false, []⟩ (by decide)⟩

/-- C8: cancelling a job that is not Pending returns the 400
invalid-state error and leaves the record exactly as it was, and both
`get_job_status` and `cancel_job` return the 404 not-found error for an
unknown identifier. -/
theorem cancel_and_status_error_paths (r : JobRecord) (h : r.status ≠ Status.pending) :
    cancel_job (some r) = (some r, Except.error HTTPError.badRequest) ∧
    get_job_status none = Except.error HTTPError.notFound ∧
    cancel_job none = (none, Except.error HTTPError.notFound) := by
  refine ⟨?_, rfl, rfl⟩
  simp [cancel_job, h]

/-- C8, witness at a concrete non-Pending record. -/
theorem cancel_and_status_error_paths_witness :
    (⟨Status.completed, 3, 5, "w8"⟩ : JobRecord).status ≠ Status.pending ∧
    (cancel_job (some ⟨Status.completed, 3, 5, "w8"⟩) =
      (some ⟨Status.completed, 3, 5, "w8"⟩, Except.error HTTPError.badRequest) ∧
    get_job_status none = Except.error HTTPError.notFound ∧
    cancel_job none = (none, Except.error HTTPError.notFound)) :=
  ⟨by decide, cancel_and_status_error_paths ⟨Status.completed, 3, 5, "w8"⟩ (by decide)⟩

theorem pySlice_cons {α : Type} (c : α) (l : List α) (n : Int) (hn : 1 ≤ n) :
    pySlice (c :: l) n = c :: l.take (n.toNat - 1) := by
  unfold pySlice
  rw [if_pos (by omega)]
  obtain ⟨k, hk⟩ : ∃ k, n.toNat = k + 1 := ⟨n.toNat - 1, by omega⟩
  rw [hk]
  simp [List.take_succ_cons]

/-- C4, counterexample: a remote candidate whose three attempts all
return 404 is skipped without a file and without failing the job, but
`images_scraped` is nevertheless assigned the loop index — the record
ends Completed with `images_scraped = 1` while `files_written = 0`,
contradicting the claim's "not incremented". -/
theorem skipped_candidate_still_advances_count :
    save_image (Candidate.remote fun _ => AttemptResult.httpStatus 404) =
      SaveResult.completedSave false ∧
    (scrape_images_task ⟨true, [Candidate.remote fun _ => AttemptResult.httpStatus 404]⟩ 1
        (some (start_scrape 1 "d"))).record = some ⟨Status.completed, 1, 1, "d"⟩ ∧
    (scrape_images_task ⟨true, [Candidate.remote fun _ => AttemptResult.httpStatus 404]⟩ 1
        (some (start_scrape 1 "d"))).files_written = 0 := by
  exact ⟨rfl, rfl, rfl⟩

/-- C4, amended: when all three attempts for a remote candidate return a
non-success status, `save_image` returns without raising and without
writing a file, and the loop proceeds to the next candidate — but it
still assigns `images_scraped := index` for the skipped candidate
(everything else of the iteration behaves as for a success that wrote
nothing: same raise flag, same file count, same continuation). -/
theorem remote_failure_skips_file_but_advances
    (net : Nat → AttemptResult) (rest : List Candidate) (idx : Nat) (r : JobRecord)
    (h : ∀ i < 3, nonSuccess (net i) = true) :
    save_image (Candidate.remote net) = SaveResult.completedSave false ∧
    (run_loop (Candidate.remote net :: rest) idx (some r)).raised =
      (run_loop rest (idx + 1) (some { r with images_scraped := (idx : Int) })).raised ∧
    (run_loop (Candidate.remote net :: rest) idx (some r)).files_written =
      (run_loop rest (idx + 1) (some { r with images_scraped := (idx : Int) })).files_written ∧
    (run_loop (Candidate.remote net :: rest) idx (some r)).record =
      (run_loop rest (idx + 1) (some { r with images_scraped := (idx : Int) })).record ∧
    (run_loop (Candidate.remote net :: rest) idx (some r)).trace =
      some { r with images_scraped := (idx : Int) } ::
        (run_loop rest (idx + 1) (some { r with images_scraped := (idx : Int) })).trace := by
  have hs := save_image_nonsuccess h
  refine ⟨hs, ?_, ?_, ?_, ?_⟩ <;> simp [run_loop, hs]

/-- C4, witness of the amended theorem at a concrete input. -/
theorem remote_failure_skips_file_but_advances_witness :
    (∀ i < 3, nonSuccess ((fun _ => AttemptResult.httpStatus 410) i) = true) ∧
    (save_image (Candidate.remote fun _ => AttemptResult.httpStatus 410) =
      SaveResult.completedSave false ∧
    (run_loop [Candidate.remote fun _ => AttemptResult.httpStatus 410] 1
        (some (start_scrape 3 "w4"))).raised =
      (run_loop [] 2 (some { start_scrape 3 "w4" with
        images_scraped := ((1 : Nat) : Int) })).raised ∧
    (run_loop [Candidate.remote fun _ => AttemptResult.httpStatus 410] 1
        (some (start_scrape 3 "w4"))).files_written =
      (run_loop [] 2 (some { start_scrape 3 "w4" with
        images_scraped := ((1 : Nat) : Int) })).files_written ∧
    (run_loop [Candidate.remote fun _ => AttemptResult.httpStatus 410] 1
        (some (start_scrape 3 "w4"))).record =
      (run_loop [] 2 (some { start_scrape 3 "w4" with
        images_scraped := ((1 : Nat) : Int) })).record ∧
    (run_loop [Candidate.remote fun _ => AttemptResult.httpStatus 410] 1
        (some (start_scrape 3 "w4"))).trace =
      some { start_scrape 3 "w4" with images_scraped := ((1 : Nat) : Int) } ::
        (run_loop [] 2 (some { start_scrape 3 "w4" with
          images_scraped := ((1 : Nat) : Int) })).trace) :=
  ⟨by decide,
    remote_failure_skips_file_but_advances (fun _ => AttemptResult.httpStatus 410) [] 1
      (start_scrape 3 "w4") (by decide)⟩

/-- C9: if `requests.get` itself raises on some attempt `i` (the earlier
attempts having returned non-success statuses), `save_image` raises at
once — the conclusion does not depend on the behaviour of any attempt
after `i`, so no remaining retries are consumed — the loop aborts with
the record untouched, and the pipeline marks the job Failed (leaving the
driver open).  By contrast a run of three non-success responses merely
returns with no file: the retry-then-skip policy is reserved for
status-code failures. -/
theorem connection_raise_fails_job_immediately
    (net : Nat → AttemptResult) (i : Nat) (hi : i < 3)
    (hraise : net i = AttemptResult.connectionRaise)
    (hbefore : ∀ j < i, nonSuccess (net j) = true)
    (rest : List Candidate) (idx : Nat) (r : JobRecord) (n : Int) (hn : 1 ≤ n)
    (net2 : Nat → AttemptResult) (h2 : ∀ i2 < 3, nonSuccess (net2 i2) = true) :
    save_image (Candidate.remote net) = SaveResult.raisedSave ∧
    run_loop (Candidate.remote net :: rest) idx (some r) = ⟨some r, 0, true, []⟩ ∧
    (scrape_images_task ⟨true, Candidate.remote net :: rest⟩ n (some r)).record =
      some { r with status := Status.failed } ∧
    (scrape_images_task ⟨true, Candidate.remote net :: rest⟩ n (some r)).driver_closed
      = false ∧
    save_image (Candidate.remote net2) = SaveResult.completedSave false := by
  have hsave : save_image (Candidate.remote net) = SaveResult.raisedSave := by
    show remote_attempts net 0 3 = SaveResult.raisedSave
    interval_cases i
    · exact remote_attempts_raise hraise
    · rw [remote_attempts_skip (hbefore 0 (by omega))]
      exact remote_attempts_raise hraise
    · rw [remote_attempts_skip (hbefore 0 (by omega)),
        remote_attempts_skip (hbefore 1 (by omega))]
      exact remote_attempts_raise hraise
  have hloop : run_loop (Candidate.remote net :: rest) idx (some r) =
      ⟨some r, 0, true, []⟩ := by
    simp [run_loop, hsave]
  have hloop1 : run_loop (Candidate.remote net :: rest.take (n.toNat - 1)) 1 (some r) =
      ⟨some r, 0, true, []⟩ := by
    simp [run_loop, hsave]
  have htask : scrape_images_task ⟨true, Candidate.remote net :: rest⟩ n (some r) =
      ⟨some { r with status := Status.failed }, 0, false, true, []⟩ := by
    unfold scrape_images_task
    simp only [if_true, pySlice_cons _ _ _ hn, hloop1]
    rfl
  exact ⟨hsave, hloop, by rw [htask], by rw [htask], save_image_nonsuccess h2⟩

/-- C9, witness at a concrete environment: the second attempt raises. -/
theorem connection_raise_fails_job_immediately_witness :
    (1 < 3 ∧
      (fun j => if j = 1 then AttemptResult.connectionRaise
        else AttemptResult.httpStatus 500) 1 = AttemptResult.connectionRaise ∧
      (∀ j < 1, nonSuccess ((fun j => if j = 1 then AttemptResult.connectionRaise
        else AttemptResult.httpStatus 500) j) = true) ∧
      (1 : Int) ≤ 1 ∧
      (∀ i2 < 3, nonSuccess ((fun _ => AttemptResult.httpStatus 503) i2) = true)) ∧
    (save_image (Candidate.remote fun j => if j = 1 then AttemptResult.connectionRaise
        else AttemptResult.httpStatus 500) = SaveResult.raisedSave ∧
    run_loop [Candidate.remote fun j => if j = 1 then AttemptResult.connectionRaise
        else AttemptResult.httpStatus 500] 1 (some (start_scrape 1 "w9")) =
      ⟨some (start_scrape 1 "w9"), 0, true, []⟩ ∧
    (scrape_images_task ⟨true, [Candidate.remote fun j => if j = 1 then
        AttemptResult.connectionRaise else AttemptResult.httpStatus 500]⟩ 1
        (some (start_scrape 1 "w9"))).record =
      some { start_scrape 1 "w9" with status := Status.failed } ∧
    (scrape_images_task ⟨true, [Candidate.remote fun j => if j = 1 then
        AttemptResult.connectionRaise else AttemptResult.httpStatus 500]⟩ 1
        (some (start_scrape 1 "w9"))).driver_closed = false ∧
    save_image (Candidate.remote fun _ => AttemptResult.httpStatus 503) =
      SaveResult.completedSave false) :=
  ⟨⟨by decide, by decide, by decide, by decide, by decide⟩,
    connection_raise_fails_job_immediately
      (fun j => if j = 1 then AttemptResult.connectionRaise else AttemptResult.httpStatus 500)
      1 (by decide) (by decide) (by decide) [] 1 (start_scrape 1 "w9") 1 (by decide)
      (fun _ => AttemptResult.httpStatus 503) (by decide)⟩

/-- C7, counterexample: the code tests the placeholder marker by
substring containment, not by URL format.  A remote (https) element
whose query string merely mentions `data:image/gif` satisfies every
condition of the claim — resolvable URL, not itself of the inline
animated-placeholder format, both dimensions 200 — yet the extractor
drops it, returning the empty list instead of that URL. -/
theorem substring_placeholder_test_excludes_remote_url :
    scrape_all_images
        [⟨some "https://ex.com/a?u=data:image/gif", none, some "200", some "200"⟩] =
      Except.ok [] ∧
    claim_keep ⟨some "https://ex.com/a?u=data:image/gif", none, some "200", some "200"⟩ =
      some "https://ex.com/a?u=data:image/gif" := by
  exact ⟨by decide, by decide⟩

/-- C7, amended: on every element list whose URL-passing elements carry
parseable dimensions, the extractor returns exactly the per-element
selection `spec_keep` — source URL preferring `src` with `data-src`
fallback, URL not containing the `data:image/gif` substring, both
dimensions at least 100 with unset read as 0 — in DOM encounter order
via `filterMap`: no deduplication, no reordering, no truncation. -/
theorem extractor_matches_spec_selection (elems : List ImgElem)
    (H : ∀ img ∈ elems, urlPasses img = true →
      (pyDim img.width).isSome = true ∧ (pyDim img.height).isSome = true) :
    scrape_all_images elems = Except.ok (elems.filterMap spec_keep) := by
  induction elems with
  | nil => rfl
  | cons img rest ih =>
    have Hrest : ∀ i ∈ rest, urlPasses i = true →
        (pyDim i.width).isSome = true ∧ (pyDim i.height).isSome = true :=
      fun i hi => H i (List.mem_cons_of_mem _ hi)
    have ihr := ih Hrest
    by_cases hp : urlPasses img = true
    · obtain ⟨hw, hh⟩ := H img (List.mem_cons_self _ _) hp
      obtain ⟨w, hw'⟩ := Option.isSome_iff_exists.mp hw
      obtain ⟨hgt, hh'⟩ := Option.isSome_iff_exists.mp hh
      by_cases hd : 100 ≤ w ∧ 100 ≤ hgt
      · have hu := urlPasses_resolved hp
        have hk : spec_keep img = some ((resolvedUrl img).getD "") := by
          rw [spec_keep, if_pos hp, hw', hh']
          show (if 100 ≤ w ∧ 100 ≤ hgt then resolvedUrl img else none) = _
          rw [if_pos hd]
          exact hu
        simp only [scrape_all_images, hp, if_true, hw', hh']
        rw [if_pos hd, ihr, List.filterMap_cons, hk]
      · have hk : spec_keep img = none := by
          rw [spec_keep, if_pos hp, hw', hh']
          show (if 100 ≤ w ∧ 100 ≤ hgt then resolvedUrl img else none) = _
          rw [if_neg hd]
        simp only [scrape_all_images, hp, if_true, hw', hh']
        rw [if_neg hd, ihr, List.filterMap_cons, hk]
    · have hp' : urlPasses img = false := by simpa using hp
      have hk : spec_keep img = none := by
        rw [spec_keep, if_neg]
        rw [hp']
        simp
      simp only [scrape_all_images, hp', Bool.false_eq_true, if_false]
      rw [ihr, List.filterMap_cons, hk]

/-- C7, witness of the amended theorem: one kept element, one rejected
by the size threshold, one with no resolvable URL. -/
theorem extractor_matches_spec_selection_witness :
    (∀ img ∈ [(⟨some "http://a/1.jpg", none, some "300", some "200"⟩ : ImgElem),
        ⟨some "http://a/2.jpg", none, some "50", some "200"⟩,
        ⟨none, some "", some "400", some "400"⟩],
      urlPasses img = true →
        (pyDim img.width).isSome = true ∧ (pyDim img.height).isSome = true) ∧
    scrape_all_images [⟨some "http://a/1.jpg", none, some "300", some "200"⟩,
        ⟨some "http://a/2.jpg", none, some "50", some "200"⟩,
        ⟨none, some "", some "400", some "400"⟩] =
      Except.ok (List.filterMap spec_keep
        [⟨some "http://a/1.jpg", none, some "300", some "200"⟩,
         ⟨some "http://a/2.jpg", none, some "50", some "200"⟩,
         ⟨none, some "", some "400", some "400"⟩]) :=
  ⟨by decide,
    extractor_matches_spec_selection
      [⟨some "http://a/1.jpg", none, some "300", some "200"⟩,
       ⟨some "http://a/2.jpg", none, some "50", some "200"⟩,
       ⟨none, some "", some "400", some "400"⟩] (by decide)⟩

/-- C10, counterexample: the claim quantifies over every element with an
unparseable dimension attribute, but an element that fails the URL guard
(here: no `src`, no `data-src`) never has its dimensions parsed — its
`width="abc"` is present and unparseable, yet the extraction succeeds
with the empty list instead of raising. -/
theorem unparseable_dims_skipped_when_url_fails :
    scrape_all_images [⟨none, none, some "abc", none⟩] = Except.ok [] ∧
    (⟨none, none, some "abc", none⟩ : ImgElem).width = some "abc" ∧
    pyDim (some "abc") = none := by
  exact ⟨by decide, rfl, by decide⟩

/-- C10, amended: an element that passes the URL guard and has an
unparseable width or height raises, failing the entire extraction —
including all elements already collected before it — provided the
elements before it are themselves processed without raising. -/
theorem unparseable_dims_fail_extraction (pre : List ImgElem) (img : ImgElem)
    (post : List ImgElem) (hbad : elemBad img = true) (hpre : pre.all elemSafe = true) :
    scrape_all_images (pre ++ img :: post) = Except.error () := by
  induction pre with
  | nil =>
    rw [List.nil_append]
    have hp : urlPasses img = true := ((Bool.and_eq_true _ _).mp hbad).1
    have hd : (!((pyDim img.width).isSome && (pyDim img.height).isSome)) = true :=
      ((Bool.and_eq_true _ _).mp hbad).2
    cases hw : pyDim img.width with
    | none => simp [scrape_all_images, hp, hw]
    | some w =>
      cases hh : pyDim img.height with
      | none => simp [scrape_all_images, hp, hw, hh]
      | some hgt => rw [hw, hh] at hd; simp at hd
  | cons e pre' ih =>
    rw [List.cons_append]
    have hsafe : elemSafe e = true := by
      rw [List.all_cons] at hpre
      exact ((Bool.and_eq_true _ _).mp hpre).1
    have hpre' : pre'.all elemSafe = true := by
      rw [List.all_cons] at hpre
      exact ((Bool.and_eq_true _ _).mp hpre).2
    have ihp := ih hpre'
    by_cases hp : urlPasses e = true
    · have hdims : ((pyDim e.width).isSome && (pyDim e.height).isSome) = true := by
        unfold elemSafe at hsafe
        rcases (Bool.or_eq_true _ _).mp hsafe with h | h
        · rw [hp] at h
          simp at h
        · exact h
      obtain ⟨hw, hh⟩ := (Bool.and_eq_true _ _).mp hdims
      obtain ⟨w, hw'⟩ := Option.isSome_iff_exists.mp hw
      obtain ⟨hgt, hh'⟩ := Option.isSome_iff_exists.mp hh
      by_cases hthr : 100 ≤ w ∧ 100 ≤ hgt
      · simp only [scrape_all_images, hp, if_true, hw', hh']
        rw [if_pos hthr, ihp]
      · simp only [scrape_all_images, hp, if_true, hw', hh']
        rw [if_neg hthr]
        exact ihp
    · have hp' : urlPasses e = false := by simpa using hp
      simp only [scrape_all_images, hp', Bool.false_eq_true, if_false]
      exact ihp

/-- C10, witness of the amended theorem: a good element followed by a
URL-passing element with width `"zz"`. -/
theorem unparseable_dims_fail_extraction_witness :
    (elemBad ⟨some "http://b/y", none, some "zz", some "90"⟩ = true ∧
      ([(⟨some "http://p/x", none, some "150", some "150"⟩ : ImgElem)].all elemSafe) = true) ∧
    scrape_all_images ([⟨some "http://p/x", none, some "150", some "150"⟩] ++
        (⟨some "http://b/y", none, some "zz", some "90"⟩ : ImgElem) :: []) =
      Except.error () :=
  ⟨⟨by decide, by decide⟩,
    unparseable_dims_fail_extraction [⟨some "http://p/x", none, some "150", some "150"⟩]
      ⟨some "http://b/y", none, some "zz", some "90"⟩ [] (by decide) (by decide)⟩

end ImageScraper
